import Mathlib

/-!
Shallow embedding of the seismogram-extraction engine of
`src/instaseis/instaseis.py` (class `InstaSeis`).

Time series are modelled as `List ℚ` (one entry per dump), strain fields as
lists of Voigt 6-vectors `Fin 6 → ℚ`.  External modules of the package
(`rotations`, `finite_elem_mapping`, `spectral_basis`, `sem_derivatives`,
`lanczos`, the netCDF readers) are abstracted as function parameters: the
embedding covers exactly the control flow and arithmetic that
`instaseis.py` itself performs on their results.
-/

namespace Instaseis

/-- The `dump_type` attribute of a parsed mesh (`instaseis.py` uses the three
string values "displ_only", "strain_only", "fullfields"). -/
inductive DumpType
  | displ_only
  | strain_only
  | fullfields
deriving DecidableEq, Repr

/-- `k_map` of `get_seismograms` (lines 208-210): number of nearest
neighbours requested from the kd-tree for each dump type. -/
def k_map : DumpType → Nat
  | .displ_only => 6
  | .strain_only => 1
  | .fullfields => 1

/-- The tolerance `1E-3` passed to `finite_elem_mapping.inside_element`
(line 238). -/
def INSIDE_TOLERANCE : ℚ := 1 / 1000

/-- The candidate loop of `get_seismograms` (lines 218-243): walk the
kd-tree candidates nearest-first, return the first element whose
isoparametric inverse mapping (`inside` abstracts
`finite_elem_mapping.inside_element` at the fixed tolerance) contains the
query point; the for-else raises `ValueError("Element not found")` when no
candidate contains it. -/
def findElement (inside : Nat → ℚ → Bool) : List Nat → Except String Nat
  | [] => .error "Element not found"
  | idx :: rest =>
      if inside idx INSIDE_TOLERANCE then .ok idx else findElement inside rest

/-- Element location of `get_seismograms` (lines 208-259): query the
kd-tree for `k_map dump_type` candidates; in `displ_only` mode run the
containment loop, otherwise take the index returned by the kd-tree as the
element id with no containment test. -/
def locateElement (dump_type : DumpType) (inside : Nat → ℚ → Bool)
    (kdtree : Nat → List Nat) : Except String Nat :=
  let nextpoints := kdtree (k_map dump_type)
  match dump_type with
  | .displ_only => findElement inside nextpoints
  | .strain_only => .ok (nextpoints.headD 0)
  | .fullfields => .ok (nextpoints.headD 0)

/-- The Z-component contraction of `get_seismograms` (lines 315-320):
`final = Σ_{i<3} mij[i]*strain_z[:,i] + 2*mij[4]*strain_z[:,4]`,
computed per time sample. -/
def contractZ (mij : Fin 6 → ℚ) (strain_z : List (Fin 6 → ℚ)) : List ℚ :=
  strain_z.map (fun st => mij 0 * st 0 + mij 1 * st 1 + mij 2 * st 2
    + 2 * mij 4 * st 4)

/-- The moment tensor with rotated value `[1, 0, 0, 0, 0, 0]` used by the
end-to-end test of the spec. -/
def unitTensor : Fin 6 → ℚ := fun i => if i.val = 0 then 1 else 0

/-- Modelled from the spec: the per-mesh strain/displacement buffer
(`mesh.strain_buffer` / `mesh.displ_buffer`; the `mesh` module is not part
of the extracted sources).  §4.2: "returns a cached array if present; else
invokes `decode` exactly once, stores, returns" — modelled as an
association list keyed by element id, membership and lookup agreeing, no
eviction between the calls under study. -/
abbrev Buffer (α : Type) := List (Nat × α)

/-- Buffer lookup: the value stored for `id_elem`, if present (models
`id_elem in mesh.strain_buffer` / `mesh.strain_buffer.get(id_elem)`). -/
def Buffer.get {α : Type} (b : Buffer α) (id_elem : Nat) : Option α :=
  (List.find? (fun p => p.1 == id_elem) b).map Prod.snd

/-- Buffer insertion (models `mesh.strain_buffer.add(id_elem, strain)`). -/
def Buffer.add {α : Type} (b : Buffer α) (id_elem : Nat) (v : α) : Buffer α :=
  (id_elem, v) :: b

/-- Common shape of `__get_strain`, `__get_strain_interp` and
`__get_displacement` (lines 613-715): on a buffer miss run the expensive
`decode` of the raw snapshot arrays once and store the decoded array; on a
hit take the buffered array; in both cases return `interp` of it
(`interp` is the identity for `__get_strain`, and the Lagrange
interpolation plus sign fixes for `__get_strain_interp` and
`__get_displacement`).  The third component counts how many times `decode`
ran during the call. -/
def getCached {α β : Type} (decode : Nat → α) (interp : α → β)
    (buf : Buffer α) (id_elem : Nat) : β × Buffer α × Nat :=
  match Buffer.get buf id_elem with
  | some v => (interp v, buf, 0)
  | none =>
      let d := decode id_elem
      (interp d, Buffer.add buf id_elem d, 1)

/-- `n` sequential calls of the decode-and-cache operation with identical
arguments, threading the buffer; returns the list of returned arrays, the
final buffer, and the total number of `decode` invocations. -/
def getCachedIter {α β : Type} (decode : Nat → α) (interp : α → β)
    (id_elem : Nat) : Nat → Buffer α → List β × Buffer α × Nat
  | 0, buf => ([], buf, 0)
  | Nat.succ n, buf =>
      let r := getCached decode interp buf id_elem
      let rest := getCachedIter decode interp id_elem n r.2.1
      (r.1 :: rest.1, rest.2.1, r.2.2 + rest.2.2)

/-- `obspy.signal.util.nextpow2`: `2 ** ceil(log2 n)`, the value the
constructor feeds into `self.nfft` (line 68). -/
def nextpow2 (n : Nat) : Nat := 2 ^ Nat.clog 2 n

/-- `self.nfft = nextpow2(self.ndumps) * 2` (line 68). -/
def nfftOf (ndumps : Nat) : Nat := nextpow2 ndumps * 2

/-- `_get_band_code` (lines 594-611): the channel band code derived from
the sampling rate `1/dt` by fixed thresholds. -/
def getBandCode (dt : ℚ) : String :=
  let sr := 1 / dt
  if sr ≤ 0.001 then "F"
  else if sr ≤ 0.004 then "C"
  else if sr ≤ 0.0125 then "H"
  else if sr ≤ 0.1 then "B"
  else if sr ≤ 1 then "M"
  else "L"

/-- Channel naming `"%sX%s" % (band_code, comp)` (line 532): band code,
fixed instrument code "X", component letter. -/
def channelName (band_code comp : String) : String := band_code ++ "X" ++ comp

/-- `DEFAULT_MU = 32e9` (line 34), the reference rigidity. -/
def DEFAULT_MU : ℚ := 32e9

/-- Pointwise scaling of a series (models `data[comp] * mu / DEFAULT_MU`,
lines 571-573, with `c = mu / DEFAULT_MU`). -/
def scaleSeries (c : ℚ) (xs : List ℚ) : List ℚ := xs.map (fun x => x * c)

/-- Pointwise sum of two series (models `data_summed[comp] += ...`). -/
def addSeries (xs ys : List ℚ) : List ℚ := List.zipWith (fun a b => a + b) xs ys

/-- The source-time-function data a `Source` object may carry (`source.dt`,
`source.sliprate`, `source.time_shift`; each may be absent). -/
structure SourceSTF where
  dt : Option ℚ
  sliprate : Option (List ℚ)
  time_shift : Option ℚ

/-- Abstract frequency-domain toolkit: `np.fft.rfft` / `np.fft.irfft` over
a spectrum type `F`, pointwise product and quotient of spectra, and the
linear-phase factor `exp(-1j * rfftfreq(nfft) * 2π * time_shift / dt)`
applied by multiplication (lines 496-515).  The embedding tracks which of
these the code composes, not their numerics. -/
structure FreqOps (F : Type) where
  rfft : List ℚ → Nat → F
  irfft : F → List ℚ
  fmul : F → F → F
  fdiv : F → F → F
  phaseShift : Nat → ℚ → ℚ → F → F

/-- The `reconvolve_stf` branch of the post-processing loop (lines
492-515): require the source to carry `dt` and `sliprate` (else
`RuntimeError("source has no source time function")`); require
`abs((source.dt - self.dt)/self.dt) <= 1e-7` (else
`ValueError("dt of the source not compatible")`); then divide the data
spectrum by the database STF spectrum, multiply by the supplied STF
spectrum (with a linear-phase factor when `time_shift` is present), invert
and truncate to the native sample count `ndumps`. -/
def reconvolveStf {F : Type} (ops : FreqOps F) (dbDt : ℚ) (nfft ndumps : Nat)
    (dbSliprate : List ℚ) (src : SourceSTF) (data : List ℚ) :
    Except String (List ℚ) :=
  match src.dt, src.sliprate with
  | some sdt, some sr =>
      let stf_deconv_f := ops.rfft dbSliprate nfft
      if 1e-7 < |(sdt - dbDt) / dbDt| then
        .error "dt of the source not compatible"
      else
        let stf_conv_f := ops.rfft sr nfft
        let stf_conv_f2 :=
          match src.time_shift with
          | some ts => ops.phaseShift nfft ts dbDt stf_conv_f
          | none => stf_conv_f
        let dataf := ops.rfft data nfft
        .ok (List.take ndumps
          (ops.irfft (ops.fdiv (ops.fmul dataf stf_conv_f2) stf_deconv_f)))
  | _, _ => .error "source has no source time function"

/-- The per-component post-processing loop of `get_seismograms` (lines
489-519): (1) with `remove_source_shift` and not `reconvolve_stf`, drop the
leading `source_shift_samp` samples; (2) with `reconvolve_stf`, run the
reconvolution branch; (3) when a target `dt` is given, Lanczos-resample
(`lanczos_resamp` abstracts `lanczos.lanczos_resamp(data, native_dt, dt,
a_lanczos)`). -/
def postprocessComp {F : Type} (ops : FreqOps F)
    (remove_source_shift reconvolve_stf : Bool) (source_shift_samp : Nat)
    (dbDt : ℚ) (nfft ndumps : Nat) (dbSliprate : List ℚ) (src : SourceSTF)
    (dt : Option ℚ) (a_lanczos : Nat)
    (lanczos_resamp : List ℚ → ℚ → ℚ → Nat → List ℚ) (data : List ℚ) :
    Except String (List ℚ) :=
  let step1 : Except String (List ℚ) :=
    if remove_source_shift && !reconvolve_stf then
      .ok (data.drop source_shift_samp)
    else if reconvolve_stf then
      reconvolveStf ops dbDt nfft ndumps dbSliprate src data
    else
      .ok data
  match step1 with
  | .error e => .error e
  | .ok d =>
      match dt with
      | some dt2 => .ok (lanczos_resamp d dbDt dt2 a_lanczos)
      | none => .ok d

/-- The two shapes of `self.meshes` the constructor can build:
`MeshCollection_fwd` (forward mode) or `MeshCollection_bwd` (reciprocal
mode), lines 30-32. -/
inductive MeshCollection
  | fwd
  | bwd
deriving DecidableEq, Repr

/-- The four elemental subfolder paths checked by the forward branch of
`_find_and_open_files` (lines 122-125). -/
def fwdSubfolders (db_path : String) : List String :=
  [db_path ++ "/MZZ", db_path ++ "/MXX_P_MYY", db_path ++ "/MXZ_MYZ",
   db_path ++ "/MXY_MXX_M_MYY"]

/-- The four `ordered_output.nc4` file paths checked next (lines 135-143). -/
def fwdFiles (db_path : String) : List String :=
  (fwdSubfolders db_path).map (fun p => p ++ "/Data/ordered_output.nc4")

/-- The forward branch (`reciprocal=False`) of `_find_and_open_files`
(lines 121-167): `path_exists` abstracts `os.path.exists`.  Raise when any
of the four elemental subfolders is missing, then when any of their
`ordered_output.nc4` files is missing; only when all are present build the
forward mesh collection. -/
def findAndOpenFilesForward (path_exists : String → Bool) (db_path : String) :
    Except String MeshCollection :=
  let m1 := db_path ++ "/MZZ"
  let m2 := db_path ++ "/MXX_P_MYY"
  let m3 := db_path ++ "/MXZ_MYZ"
  let m4 := db_path ++ "/MXY_MXX_M_MYY"
  if !path_exists m1 || !path_exists m2 || !path_exists m3
      || !path_exists m4 then
    .error "Expecting the four elemental moment tensor subfolders to be present."
  else
    let m1_file := m1 ++ "/Data/ordered_output.nc4"
    let m2_file := m2 ++ "/Data/ordered_output.nc4"
    let m3_file := m3 ++ "/Data/ordered_output.nc4"
    let m4_file := m4 ++ "/Data/ordered_output.nc4"
    if path_exists m1_file && path_exists m2_file && path_exists m3_file
        && path_exists m4_file then
      .ok MeshCollection.fwd
    else
      .error "ordered_output.nc4 files must exist in the */Data subfolders"

/-- `get_seismograms_finite_source` (lines 543-592), per component: call
`get_seismograms` for every point source with `reconvolve_stf=True` and
`return_obspy_stream=False` (`gs source reconvolve_flag` abstracts that
call, returning the component series and the rigidity `mu` at the located
element), accumulate `data * mu / DEFAULT_MU` into the running sum, and
when a target `dt` is given apply `lanczos.lanczos_resamp` once to the
summed series.  `finiteSourceStep` is the loop body (lines 565-573): the
dict accumulation `data_summed[comp] += data[comp] * mu / DEFAULT_MU` with
first-assignment on a missing key. -/
def finiteSourceStep {σ : Type} (gs : σ → Bool → List ℚ × ℚ)
    (acc : Option (List ℚ)) (s : σ) : Option (List ℚ) :=
  let r := gs s true
  match acc with
  | none => some (scaleSeries (r.2 / DEFAULT_MU) r.1)
  | some a => some (addSeries a (scaleSeries (r.2 / DEFAULT_MU) r.1))

def getSeismogramsFiniteSource {σ : Type} (gs : σ → Bool → List ℚ × ℚ)
    (lanczos_resamp : List ℚ → ℚ → ℚ → Nat → List ℚ) (dbDt : ℚ)
    (dt : Option ℚ) (a_lanczos : Nat) (sources : List σ) : Option (List ℚ) :=
  let data_summed := List.foldl (finiteSourceStep gs) none sources
  match dt, data_summed with
  | some dt2, some d => some (lanczos_resamp d dbDt dt2 a_lanczos)
  | _, d => d

/-- The global scalars of the parsed mesh that `get_seismograms` reads. -/
structure DBModel where
  dump_type : DumpType
  amplitude : ℚ
  source_shift_samp : Nat
  dt : ℚ
  ndumps : Nat
  nfft : Nat
  sliprate : List ℚ

/-- Python exceptions distinguished by the embedding. -/
inductive PyErr
  | valueError (msg : String)
  | unboundLocalError (name : String)
deriving DecidableEq, Repr

/-- The two return shapes of `get_seismograms`: an obspy trace
(`return_obspy_stream=True`, restricted here to the single "Z" trace:
data, delta, channel) or the `(data, mu)` pair. -/
inductive SeisOutput
  | stream (tr : List ℚ) (delta : ℚ) (channel : String)
  | dataMu (d : List ℚ) (mu : ℚ)
deriving DecidableEq

/-- The `components=("Z",)` reciprocal moment-tensor path of
`get_seismograms` (lines 195-541): locate the element; in `displ_only`
mode record `gll_point_ids = sem_mesh[id_elem]` (lines 245-249) — in the
other modes that variable is never assigned, modelled as `none`; fetch the
PZ strain (`strain_interp_z` abstracts `__get_strain_interp`,
`strain_z_raw` abstracts `__get_strain`); divide the rotated moment tensor
(`mij_rot` abstracts the three-stage rotation of lines 303-312) by the
mesh amplitude (line 313); contract into the Z series (lines 315-320);
post-process; and either build the obspy trace (lines 521-534) or look up
the central-node rigidity through `gll_point_ids` (lines 535-541), which
in the unassigned case raises `UnboundLocalError`. -/
def getSeismogramsZ {F γ : Type} (ops : FreqOps F) (db : DBModel)
    (kdtree : Nat → List Nat) (inside : Nat → ℚ → Bool)
    (sem_mesh : Nat → γ) (mesh_mu : γ → ℚ)
    (strain_interp_z : Nat → List (Fin 6 → ℚ))
    (strain_z_raw : Nat → List (Fin 6 → ℚ))
    (mij_rot : Fin 6 → ℚ) (src : SourceSTF)
    (remove_source_shift reconvolve_stf return_obspy_stream : Bool)
    (dt : Option ℚ) (a_lanczos : Nat)
    (lanczos_resamp : List ℚ → ℚ → ℚ → Nat → List ℚ) :
    Except PyErr SeisOutput :=
  match locateElement db.dump_type inside kdtree with
  | .error e => .error (.valueError e)
  | .ok id_elem =>
      let gll_point_ids : Option γ :=
        match db.dump_type with
        | .displ_only => some (sem_mesh id_elem)
        | .strain_only => none
        | .fullfields => none
      let strain_z :=
        match db.dump_type with
        | .displ_only => strain_interp_z id_elem
        | .strain_only => strain_z_raw id_elem
        | .fullfields => strain_z_raw id_elem
      let mij : Fin 6 → ℚ := fun i => mij_rot i / db.amplitude
      let dataZ := contractZ mij strain_z
      match postprocessComp ops remove_source_shift reconvolve_stf
          db.source_shift_samp db.dt db.nfft db.ndumps db.sliprate src dt
          a_lanczos lanczos_resamp dataZ with
      | .error e => .error (.valueError e)
      | .ok d =>
          if return_obspy_stream then
            let dt2 := dt.getD db.dt
            .ok (.stream d dt2 (channelName (getBandCode dt2) "Z"))
          else
            match gll_point_ids with
            | some g => .ok (.dataMu d (mesh_mu g))
            | none => .error (.unboundLocalError "gll_point_ids")

/-! ## Helper lemmas -/

theorem findElement_eq_find? (inside : Nat → ℚ → Bool) (l : List Nat) :
    findElement inside l =
      match l.find? (fun idx => inside idx INSIDE_TOLERANCE) with
      | some idx => .ok idx
      | none => .error "Element not found" := by
  induction l with
  | nil => rfl
  | cons x xs ih =>
      cases h : inside x INSIDE_TOLERANCE with
      | true => simp [findElement, List.find?_cons, h]
      | false => simp [findElement, List.find?_cons, h, ih]

theorem Buffer.get_add {α : Type} (buf : Buffer α) (id_elem : Nat) (v : α) :
    Buffer.get (Buffer.add buf id_elem v) id_elem = some v := by
  simp [Buffer.get, Buffer.add, List.find?_cons]

theorem getCachedIter_hit {α β : Type} (decode : Nat → α) (interp : α → β)
    (id_elem : Nat) (v : α) :
    ∀ (n : Nat) (buf : Buffer α), Buffer.get buf id_elem = some v →
      getCachedIter decode interp id_elem n buf
        = (List.replicate n (interp v), buf, 0) := by
  intro n
  induction n with
  | zero => intro buf h; rfl
  | succ n ih =>
      intro buf h
      simp [getCachedIter, getCached, h, ih buf h, List.replicate_succ]

theorem finite_source_sum_acc {σ : Type} (gs : σ → Bool → List ℚ × ℚ) :
    ∀ (rest : List σ) (acc : List ℚ),
      List.foldl (finiteSourceStep gs) (some acc) rest
        = some (List.foldl (fun a s =>
            addSeries a (scaleSeries ((gs s true).2 / DEFAULT_MU) (gs s true).1))
            acc rest) := by
  intro rest
  induction rest with
  | nil => intro acc; rfl
  | cons s rest2 ih =>
      intro acc
      simp only [List.foldl_cons]
      rw [show finiteSourceStep gs (some acc) s
          = some (addSeries acc
              (scaleSeries ((gs s true).2 / DEFAULT_MU) (gs s true).1)) from rfl]
      exact ih _

/-! ## Claim theorems -/

/-- C3: for a fixed (mesh, element id), `n ≥ 1` sequential calls of the
decode-and-cache operations (`__get_strain`, `__get_strain_interp`,
`__get_displacement`, all instances of `getCached`) starting from a buffer
that does not hold the element invoke the expensive decode exactly once,
the first call stores the decoded array in the buffer, and every call
returns the identical array. -/
theorem element_cache_decode_once {α β : Type} (decode : Nat → α)
    (interp : α → β) (buf : Buffer α) (id_elem n : Nat)
    (hmiss : Buffer.get buf id_elem = none) (hn : 1 ≤ n) :
    getCachedIter decode interp id_elem n buf
      = (List.replicate n (interp (decode id_elem)),
         Buffer.add buf id_elem (decode id_elem), 1) := by
  cases n with
  | zero => omega
  | succ n =>
      have hhit := getCachedIter_hit decode interp id_elem (decode id_elem) n
        (Buffer.add buf id_elem (decode id_elem))
        (Buffer.get_add buf id_elem (decode id_elem))
      simp [getCachedIter, getCached, hmiss, hhit, List.replicate_succ]

/-- C3 witness: two sequential calls on element 3 from an empty buffer:
one decode, value stored, both calls return the same array. -/
theorem element_cache_decode_once_witness :
    (Buffer.get ([] : Buffer ℚ) 3 = none ∧ 1 ≤ 2) ∧
    getCachedIter (fun _ => (7:ℚ)) (fun x => x + 1) 3 2 []
      = (List.replicate 2 ((7:ℚ) + 1), Buffer.add [] 3 (7:ℚ), 1) :=
  ⟨⟨rfl, by decide⟩,
    element_cache_decode_once (fun _ => (7:ℚ)) (fun x => x + 1) [] 3 2 rfl
      (by decide)⟩

/-- C4: `get_seismograms_finite_source` runs every point source through
`get_seismograms` with reconvolution forced on (`gs s true`), scales each
result by mu / DEFAULT_MU, accumulates a running sum, and applies the
Lanczos resampling once to the final sum — never per source. -/
theorem finite_source_scale_sum_resample_once {σ : Type}
    (gs : σ → Bool → List ℚ × ℚ) (lr : List ℚ → ℚ → ℚ → Nat → List ℚ)
    (dbDt : ℚ) (dt : Option ℚ) (a_lanczos : Nat) (s0 : σ) (rest : List σ) :
    getSeismogramsFiniteSource gs lr dbDt dt a_lanczos (s0 :: rest)
      = some (
          let total := List.foldl (fun a s =>
            addSeries a
              (scaleSeries ((gs s true).2 / DEFAULT_MU) (gs s true).1))
            (scaleSeries ((gs s0 true).2 / DEFAULT_MU) (gs s0 true).1) rest
          match dt with
          | some dt2 => lr total dbDt dt2 a_lanczos
          | none => total) := by
  simp only [getSeismogramsFiniteSource, List.foldl_cons]
  rw [show finiteSourceStep gs none s0
      = some (scaleSeries ((gs s0 true).2 / DEFAULT_MU) (gs s0 true).1)
      from rfl]
  rw [finite_source_sum_acc]
  cases dt <;> rfl

/-- C2: on a `displ_only` database the locator asks the spatial index for
k=6 candidates and tests them nearest-first with the isoparametric inverse
mapping at tolerance 1e-3, returning the first candidate containing the
point, and raises the geometry error exactly when no candidate contains
it; for `strain_only` and `fullfields` k=1 and the index result is taken
as the element id with no containment test. -/
theorem locator_candidates :
    k_map DumpType.displ_only = 6 ∧ k_map DumpType.strain_only = 1 ∧
    k_map DumpType.fullfields = 1 ∧
    INSIDE_TOLERANCE = 1 / 1000 ∧
    ∀ (inside : Nat → ℚ → Bool) (kdtree : Nat → List Nat),
      (locateElement DumpType.displ_only inside kdtree =
        match (kdtree 6).find? (fun idx => inside idx INSIDE_TOLERANCE) with
        | some idx => .ok idx
        | none => .error "Element not found") ∧
      ((locateElement DumpType.displ_only inside kdtree
          = .error "Element not found") ↔
        ∀ idx ∈ kdtree 6, inside idx INSIDE_TOLERANCE = false) ∧
      locateElement DumpType.strain_only inside kdtree
        = .ok ((kdtree 1).headD 0) ∧
      locateElement DumpType.fullfields inside kdtree
        = .ok ((kdtree 1).headD 0) := by
  refine ⟨rfl, rfl, rfl, rfl, fun inside kdtree => ⟨?_, ?_, rfl, rfl⟩⟩
  · simpa [locateElement, k_map] using findElement_eq_find? inside (kdtree 6)
  · have h := findElement_eq_find? inside (kdtree 6)
    simp only [locateElement, k_map]
    rw [h]
    cases hf : (kdtree 6).find? (fun idx => inside idx INSIDE_TOLERANCE) with
    | none =>
        simp only [List.find?_eq_none] at hf
        simpa using fun idx hm => by simpa using hf idx hm
    | some v =>
        simp only []
        constructor
        · intro hc; exact absurd hc (by simp)
        · intro hall
          exfalso
          have hv := List.find?_some hf
          have hin := List.mem_of_find?_eq_some hf
          have := hall v hin
          simp_all

/-- C7: for every component, with `remove_source_shift` true and
`reconvolve_stf` false exactly the first `source_shift_samp` samples are
dropped and the remainder is unchanged; with `reconvolve_stf` true no
leading samples are dropped (the series goes to the reconvolution branch
whole). -/
theorem source_shift_trimming {F : Type} (ops : FreqOps F)
    (shift : Nat) (dbDt : ℚ) (nfft ndumps : Nat) (dbSliprate : List ℚ)
    (src : SourceSTF) (a_lanczos : Nat)
    (lr : List ℚ → ℚ → ℚ → Nat → List ℚ) (data : List ℚ) :
    postprocessComp ops true false shift dbDt nfft ndumps dbSliprate src
        none a_lanczos lr data = .ok (data.drop shift)
    ∧ (∀ i : Nat, (data.drop shift)[i]? = data[shift + i]?)
    ∧ (data.drop shift).length = data.length - shift
    ∧ (∀ remove : Bool,
        postprocessComp ops remove true shift dbDt nfft ndumps dbSliprate
            src none a_lanczos lr data
          = reconvolveStf ops dbDt nfft ndumps dbSliprate src data) := by
  refine ⟨by simp [postprocessComp], fun i => List.getElem?_drop data shift i,
    List.length_drop shift data, fun remove => ?_⟩
  cases hr : reconvolveStf ops dbDt nfft ndumps dbSliprate src data with
  | error e => cases remove <;> simp [postprocessComp, hr]
  | ok d => cases remove <;> simp [postprocessComp, hr]

/-- C8: for every `ndumps ≥ 1` the FFT length `nextpow2(ndumps) * 2`
computed at open time is the smallest power of two that is greater than or
equal to `2 * ndumps`. -/
theorem nfft_smallest_pow2 (ndumps : Nat) (h : 1 ≤ ndumps) :
    (∃ k, nfftOf ndumps = 2 ^ k) ∧ 2 * ndumps ≤ nfftOf ndumps ∧
      ∀ m, (∃ k, m = 2 ^ k) → 2 * ndumps ≤ m → nfftOf ndumps ≤ m := by
  have hpow : nfftOf ndumps = 2 ^ (Nat.clog 2 ndumps + 1) := by
    simp [nfftOf, nextpow2, pow_succ]
  refine ⟨⟨Nat.clog 2 ndumps + 1, hpow⟩, ?_, ?_⟩
  · have h1 : ndumps ≤ 2 ^ Nat.clog 2 ndumps := Nat.le_pow_clog one_lt_two ndumps
    have h2 : 2 * ndumps ≤ 2 * 2 ^ Nat.clog 2 ndumps :=
      Nat.mul_le_mul_left 2 h1
    rw [hpow, pow_succ]
    omega
  · rintro m ⟨k, rfl⟩ hm
    cases k with
    | zero =>
        simp only [pow_zero] at hm
        omega
    | succ k =>
        have h2 : ndumps ≤ 2 ^ k := by
          rw [pow_succ] at hm
          omega
        have h3 : Nat.clog 2 ndumps ≤ k :=
          (Nat.le_pow_iff_clog_le one_lt_two).1 h2
        rw [hpow]
        exact Nat.pow_le_pow_right (by norm_num) (Nat.succ_le_succ h3)

/-- C8 witness: instantiated at `ndumps = 5`, where the FFT length is 16. -/
theorem nfft_smallest_pow2_witness :
    (1 ≤ 5 ∧ nfftOf 5 = 16) ∧
      ((∃ k, nfftOf 5 = 2 ^ k) ∧ 2 * 5 ≤ nfftOf 5 ∧
        ∀ m, (∃ k, m = 2 ^ k) → 2 * 5 ≤ m → nfftOf 5 ≤ m) := by
  have hclog : Nat.clog 2 5 = 3 := by
    have h1 : Nat.clog 2 5 ≤ 3 :=
      (Nat.le_pow_iff_clog_le one_lt_two).1 (by norm_num)
    have h2 : 2 < Nat.clog 2 5 :=
      (Nat.pow_lt_iff_lt_clog one_lt_two).1 (by norm_num)
    omega
  exact ⟨⟨by decide, by simp [nfftOf, nextpow2, hclog]⟩,
    nfft_smallest_pow2 5 (by decide)⟩

/-- C9: for positive sampling interval `dt` the band code is determined
from the sampling rate `1/dt` by the fixed thresholds F/C/H/B/M/L, and the
channel name is the band code, the fixed instrument code "X", and the
component letter. -/
theorem band_code_thresholds (dt : ℚ) (h : 0 < dt) :
    (1 / dt ≤ 0.001 → getBandCode dt = "F") ∧
    (0.001 < 1 / dt → 1 / dt ≤ 0.004 → getBandCode dt = "C") ∧
    (0.004 < 1 / dt → 1 / dt ≤ 0.0125 → getBandCode dt = "H") ∧
    (0.0125 < 1 / dt → 1 / dt ≤ 0.1 → getBandCode dt = "B") ∧
    (0.1 < 1 / dt → 1 / dt ≤ 1 → getBandCode dt = "M") ∧
    (1 < 1 / dt → getBandCode dt = "L") ∧
    ∀ comp, channelName (getBandCode dt) comp
      = getBandCode dt ++ "X" ++ comp := by
  refine ⟨?_, ?_, ?_, ?_, ?_, ?_, fun comp => rfl⟩
  · intro h1
    simp only [getBandCode]
    rw [if_pos h1]
  · intro h1 h2
    simp only [getBandCode]
    rw [if_neg (not_le.mpr h1), if_pos h2]
  · intro h1 h2
    have h001 : ¬(1 / dt ≤ (0.001:ℚ)) :=
      not_le.mpr (lt_trans (by norm_num : (0.001:ℚ) < 0.004) h1)
    simp only [getBandCode]
    rw [if_neg h001, if_neg (not_le.mpr h1), if_pos h2]
  · intro h1 h2
    have h001 : ¬(1 / dt ≤ (0.001:ℚ)) :=
      not_le.mpr (lt_trans (by norm_num : (0.001:ℚ) < 0.0125) h1)
    have h004 : ¬(1 / dt ≤ (0.004:ℚ)) :=
      not_le.mpr (lt_trans (by norm_num : (0.004:ℚ) < 0.0125) h1)
    simp only [getBandCode]
    rw [if_neg h001, if_neg h004, if_neg (not_le.mpr h1), if_pos h2]
  · intro h1 h2
    have h001 : ¬(1 / dt ≤ (0.001:ℚ)) :=
      not_le.mpr (lt_trans (by norm_num : (0.001:ℚ) < 0.1) h1)
    have h004 : ¬(1 / dt ≤ (0.004:ℚ)) :=
      not_le.mpr (lt_trans (by norm_num : (0.004:ℚ) < 0.1) h1)
    have h0125 : ¬(1 / dt ≤ (0.0125:ℚ)) :=
      not_le.mpr (lt_trans (by norm_num : (0.0125:ℚ) < 0.1) h1)
    simp only [getBandCode]
    rw [if_neg h001, if_neg h004, if_neg h0125, if_neg (not_le.mpr h1),
      if_pos h2]
  · intro h1
    have h001 : ¬(1 / dt ≤ (0.001:ℚ)) :=
      not_le.mpr (lt_trans (by norm_num : (0.001:ℚ) < 1) h1)
    have h004 : ¬(1 / dt ≤ (0.004:ℚ)) :=
      not_le.mpr (lt_trans (by norm_num : (0.004:ℚ) < 1) h1)
    have h0125 : ¬(1 / dt ≤ (0.0125:ℚ)) :=
      not_le.mpr (lt_trans (by norm_num : (0.0125:ℚ) < 1) h1)
    have h01 : ¬(1 / dt ≤ (0.1:ℚ)) :=
      not_le.mpr (lt_trans (by norm_num : (0.1:ℚ) < 1) h1)
    simp only [getBandCode]
    rw [if_neg h001, if_neg h004, if_neg h0125, if_neg h01,
      if_neg (not_le.mpr h1)]

/-- C9 witness: at `dt = 10` s the sampling rate is 0.1 Hz, giving band
code "B" and channel "BXZ". -/
theorem band_code_thresholds_witness :
    (0 < (10:ℚ) ∧ (0.0125:ℚ) < 1 / 10 ∧ (1:ℚ) / 10 ≤ 0.1) ∧
      getBandCode 10 = "B" ∧ channelName (getBandCode 10) "Z" = "BXZ" := by
  have h := band_code_thresholds 10 (by norm_num)
  refine ⟨⟨by norm_num, by norm_num, by norm_num⟩, ?_, ?_⟩
  · exact h.2.2.2.1 (by norm_num) (by norm_num)
  · rw [h.2.2.2.1 (by norm_num) (by norm_num)]
    rfl

/-- C5: with `reconvolve_stf=True`, `get_seismograms` raises when the
source carries no source-time-function samples or no sampling interval,
raises when the relative sampling-interval difference exceeds 1e-7, and
otherwise performs the FFT deconvolution/convolution (with a linear-phase
factor when the source has a time shift) and truncates the result to the
native sample count. -/
theorem reconvolve_preconditions {F : Type} (ops : FreqOps F) (dbDt : ℚ)
    (nfft ndumps : Nat) (dbSliprate : List ℚ) (src : SourceSTF)
    (data : List ℚ) :
    ((src.dt = none ∨ src.sliprate = none) →
      reconvolveStf ops dbDt nfft ndumps dbSliprate src data
        = .error "source has no source time function") ∧
    (∀ sdt sr, src.dt = some sdt → src.sliprate = some sr →
      1e-7 < |(sdt - dbDt) / dbDt| →
      reconvolveStf ops dbDt nfft ndumps dbSliprate src data
        = .error "dt of the source not compatible") ∧
    (∀ sdt sr, src.dt = some sdt → src.sliprate = some sr →
      ¬(1e-7 < |(sdt - dbDt) / dbDt|) →
      reconvolveStf ops dbDt nfft ndumps dbSliprate src data
        = .ok (List.take ndumps (ops.irfft (ops.fdiv
            (ops.fmul (ops.rfft data nfft)
              (match src.time_shift with
               | some ts => ops.phaseShift nfft ts dbDt (ops.rfft sr nfft)
               | none => ops.rfft sr nfft))
            (ops.rfft dbSliprate nfft))))) := by
  refine ⟨?_, ?_, ?_⟩
  · intro h
    cases hdt : src.dt with
    | none => simp [reconvolveStf, hdt]
    | some sdt =>
        cases h with
        | inl h1 => rw [hdt] at h1; exact absurd h1 (by simp)
        | inr h2 => simp [reconvolveStf, hdt, h2]
  · intro sdt sr hdt hsr hgt
    simp [reconvolveStf, hdt, hsr, hgt]
  · intro sdt sr hdt hsr hle
    cases hts : src.time_shift <;> simp [reconvolveStf, hdt, hsr, hle, hts]

/-- C5 witness: source STF present with matching sampling interval — the
reconvolution goes through and truncates to `ndumps = 1`. -/
theorem reconvolve_preconditions_witness :
    reconvolveStf
        (FreqOps.mk (fun l _ => l) (fun l => l) (fun a _ => a) (fun a _ => a)
          (fun _ _ _ f => f)) 1 4 1 [1]
        (SourceSTF.mk (some 1) (some [1]) none) [5, 6]
      = .ok [5] := by
  have h := (reconvolve_preconditions
    (FreqOps.mk (fun l _ => l) (fun l => l) (fun a _ => a) (fun a _ => a)
      (fun _ _ _ f => f)) 1 4 1 [1]
    (SourceSTF.mk (some 1) (some [1]) none) [5, 6]).2.2 1 [1] rfl rfl
    (by norm_num)
  simpa using h

/-- C6: opening a database in forward mode raises a configuration error
whenever any of the four elemental subfolders or any of their
`ordered_output.nc4` files is missing, succeeds exactly when all are
present, and never produces a reciprocal mesh collection. -/
theorem forward_open_requires_all_subfolders (path_exists : String → Bool)
    (db_path : String) :
    (findAndOpenFilesForward path_exists db_path = .ok MeshCollection.fwd ↔
      ∀ q ∈ fwdSubfolders db_path ++ fwdFiles db_path,
        path_exists q = true) ∧
    ((∃ e, findAndOpenFilesForward path_exists db_path = .error e) ↔
      ¬ ∀ q ∈ fwdSubfolders db_path ++ fwdFiles db_path,
        path_exists q = true) ∧
    ∀ r, findAndOpenFilesForward path_exists db_path = .ok r
      → r = MeshCollection.fwd := by
  have hmem1 : db_path ++ "/MZZ" ∈ fwdSubfolders db_path ++ fwdFiles db_path := by
    simp [fwdSubfolders, fwdFiles]
  have hmem2 : db_path ++ "/MXX_P_MYY"
      ∈ fwdSubfolders db_path ++ fwdFiles db_path := by
    simp [fwdSubfolders, fwdFiles]
  have hmem3 : db_path ++ "/MXZ_MYZ"
      ∈ fwdSubfolders db_path ++ fwdFiles db_path := by
    simp [fwdSubfolders, fwdFiles]
  have hmem4 : db_path ++ "/MXY_MXX_M_MYY"
      ∈ fwdSubfolders db_path ++ fwdFiles db_path := by
    simp [fwdSubfolders, fwdFiles]
  have hmem5 : db_path ++ "/MZZ" ++ "/Data/ordered_output.nc4"
      ∈ fwdSubfolders db_path ++ fwdFiles db_path := by
    simp [fwdSubfolders, fwdFiles]
  have hmem6 : db_path ++ "/MXX_P_MYY" ++ "/Data/ordered_output.nc4"
      ∈ fwdSubfolders db_path ++ fwdFiles db_path := by
    simp [fwdSubfolders, fwdFiles]
  have hmem7 : db_path ++ "/MXZ_MYZ" ++ "/Data/ordered_output.nc4"
      ∈ fwdSubfolders db_path ++ fwdFiles db_path := by
    simp [fwdSubfolders, fwdFiles]
  have hmem8 : db_path ++ "/MXY_MXX_M_MYY" ++ "/Data/ordered_output.nc4"
      ∈ fwdSubfolders db_path ++ fwdFiles db_path := by
    simp [fwdSubfolders, fwdFiles]
  simp only [findAndOpenFilesForward]
  by_cases hc1 : (!path_exists (db_path ++ "/MZZ")
      || !path_exists (db_path ++ "/MXX_P_MYY")
      || !path_exists (db_path ++ "/MXZ_MYZ")
      || !path_exists (db_path ++ "/MXY_MXX_M_MYY")) = true
  · rw [if_pos hc1]
    have hnp : ¬ ∀ q ∈ fwdSubfolders db_path ++ fwdFiles db_path,
        path_exists q = true := by
      intro hP
      have g1 := hP _ hmem1
      have g2 := hP _ hmem2
      have g3 := hP _ hmem3
      have g4 := hP _ hmem4
      rw [g1, g2, g3, g4] at hc1
      simp at hc1
    exact ⟨iff_of_false (by simp) hnp,
      iff_of_true ⟨_, rfl⟩ hnp, fun r hr => absurd hr (by simp)⟩
  · rw [if_neg hc1]
    have ha : ((path_exists (db_path ++ "/MZZ") = true
        ∧ path_exists (db_path ++ "/MXX_P_MYY") = true)
        ∧ path_exists (db_path ++ "/MXZ_MYZ") = true)
        ∧ path_exists (db_path ++ "/MXY_MXX_M_MYY") = true := by
      simpa using hc1
    by_cases hc2 : (path_exists (db_path ++ "/MZZ"
        ++ "/Data/ordered_output.nc4")
      && path_exists (db_path ++ "/MXX_P_MYY" ++ "/Data/ordered_output.nc4")
      && path_exists (db_path ++ "/MXZ_MYZ" ++ "/Data/ordered_output.nc4")
      && path_exists (db_path ++ "/MXY_MXX_M_MYY"
        ++ "/Data/ordered_output.nc4")) = true
    · rw [if_pos hc2]
      have hb := hc2
      simp only [Bool.and_eq_true] at hb
      have hP : ∀ q ∈ fwdSubfolders db_path ++ fwdFiles db_path,
          path_exists q = true := by
        intro q hq
        simp only [fwdSubfolders, fwdFiles, List.map_cons, List.map_nil,
          List.cons_append, List.nil_append, List.mem_cons,
          List.not_mem_nil, or_false] at hq
        rcases hq with rfl | rfl | rfl | rfl | rfl | rfl | rfl | rfl
        · exact ha.1.1.1
        · exact ha.1.1.2
        · exact ha.1.2
        · exact ha.2
        · exact hb.1.1.1
        · exact hb.1.1.2
        · exact hb.1.2
        · exact hb.2
      exact ⟨iff_of_true rfl hP,
        iff_of_false (by simp) (fun hn => hn hP),
        fun r hr => (Except.ok.inj hr).symm⟩
    · rw [if_neg hc2]
      have hnp : ¬ ∀ q ∈ fwdSubfolders db_path ++ fwdFiles db_path,
          path_exists q = true := by
        intro hP
        apply hc2
        have g5 := hP _ hmem5
        have g6 := hP _ hmem6
        have g7 := hP _ hmem7
        have g8 := hP _ hmem8
        simp [g5, g6, g7, g8]
      exact ⟨iff_of_false (by simp) hnp,
        iff_of_true ⟨_, rfl⟩ hnp, fun r hr => absurd hr (by simp)⟩

/-- C6 witness: with every path present the forward open succeeds with the
forward mesh collection. -/
theorem forward_open_witness :
    findAndOpenFilesForward (fun _ => true) "db" = .ok MeshCollection.fwd ∧
    ∀ q ∈ fwdSubfolders "db" ++ fwdFiles "db", (fun _ : String => true) q = true :=
  ⟨(forward_open_requires_all_subfolders (fun _ => true) "db").1.mpr
    (by intro q hq; rfl), by intro q hq; rfl⟩

/-- C1: on a reciprocal `displ_only` database, with no source-shift
removal, no reconvolution and no resampling, the returned Z series is
`mij[0]*strain_z[:,0] + mij[1]*strain_z[:,1] + mij[2]*strain_z[:,2]
+ 2*mij[4]*strain_z[:,4]` for the rotated, amplitude-normalized tensor
`mij`; in particular with amplitude 1 and rotated tensor `[1,0,0,0,0,0]`
it equals component 0 of the interpolated PZ strain. -/
theorem recip_Z_contraction {F γ : Type} (ops : FreqOps F) (db : DBModel)
    (kdtree : Nat → List Nat) (inside : Nat → ℚ → Bool) (sem_mesh : Nat → γ)
    (mesh_mu : γ → ℚ) (strain_interp_z strain_z_raw : Nat → List (Fin 6 → ℚ))
    (mij_rot : Fin 6 → ℚ) (src : SourceSTF) (a_lanczos : Nat)
    (lr : List ℚ → ℚ → ℚ → Nat → List ℚ) (id_elem : Nat)
    (hdump : db.dump_type = DumpType.displ_only)
    (hloc : locateElement DumpType.displ_only inside kdtree = .ok id_elem) :
    (getSeismogramsZ ops db kdtree inside sem_mesh mesh_mu strain_interp_z
        strain_z_raw mij_rot src false false true none a_lanczos lr
      = .ok (.stream
          ((strain_interp_z id_elem).map (fun st =>
            mij_rot 0 / db.amplitude * st 0 + mij_rot 1 / db.amplitude * st 1
            + mij_rot 2 / db.amplitude * st 2
            + 2 * (mij_rot 4 / db.amplitude) * st 4))
          db.dt (channelName (getBandCode db.dt) "Z"))) ∧
    (db.amplitude = 1 → mij_rot = unitTensor →
      getSeismogramsZ ops db kdtree inside sem_mesh mesh_mu strain_interp_z
          strain_z_raw mij_rot src false false true none a_lanczos lr
        = .ok (.stream ((strain_interp_z id_elem).map (fun st => st 0))
            db.dt (channelName (getBandCode db.dt) "Z"))) := by
  have hmain : getSeismogramsZ ops db kdtree inside sem_mesh mesh_mu
      strain_interp_z strain_z_raw mij_rot src false false true none
      a_lanczos lr
    = .ok (.stream
        ((strain_interp_z id_elem).map (fun st =>
          mij_rot 0 / db.amplitude * st 0 + mij_rot 1 / db.amplitude * st 1
          + mij_rot 2 / db.amplitude * st 2
          + 2 * (mij_rot 4 / db.amplitude) * st 4))
        db.dt (channelName (getBandCode db.dt) "Z")) := by
    simp [getSeismogramsZ, hdump, hloc, postprocessComp, contractZ]
  refine ⟨hmain, fun h1 h2 => ?_⟩
  have hf : (fun st : Fin 6 → ℚ =>
      mij_rot 0 / db.amplitude * st 0 + mij_rot 1 / db.amplitude * st 1
      + mij_rot 2 / db.amplitude * st 2
      + 2 * (mij_rot 4 / db.amplitude) * st 4)
      = fun st : Fin 6 → ℚ => st 0 := by
    funext st
    rw [h1, h2]
    rw [show unitTensor 0 = 1 from rfl, show unitTensor 1 = 0 from rfl,
      show unitTensor 2 = 0 from rfl, show unitTensor 4 = 0 from rfl]
    norm_num
  rw [hmain, hf]

/-- C1 witness: single-element synthetic database, unit impulse strain,
query located in element 0, unit rotated tensor, amplitude 1: the Z output
is the raw strain component 0. -/
theorem recip_Z_contraction_witness :
    (DBModel.mk DumpType.displ_only 1 0 1 2 4 [1]).dump_type
      = DumpType.displ_only ∧
    locateElement DumpType.displ_only (fun _ _ => true) (fun _ => [0])
      = .ok 0 ∧
    getSeismogramsZ
        (FreqOps.mk (fun l _ => l) (fun l => l) (fun a _ => a) (fun a _ => a)
          (fun _ _ _ f => f))
        (DBModel.mk DumpType.displ_only 1 0 1 2 4 [1])
        (fun _ => [0]) (fun _ _ => true) (fun _ => ()) (fun _ => 1)
        (fun _ => [fun _ => 3]) (fun _ => []) unitTensor
        (SourceSTF.mk none none none) false false true none 5
        (fun d _ _ _ => d)
      = .ok (.stream [3] 1 (channelName (getBandCode 1) "Z")) := by
  have h := (recip_Z_contraction
    (FreqOps.mk (fun l _ => l) (fun l => l) (fun a _ => a) (fun a _ => a)
      (fun _ _ _ f => f))
    (DBModel.mk DumpType.displ_only 1 0 1 2 4 [1])
    (fun _ => [0]) (fun _ _ => true) (fun _ => ()) (fun _ => 1)
    (fun _ => [fun _ => 3]) (fun _ => []) unitTensor
    (SourceSTF.mk none none none) 5 (fun d _ _ _ => d) 0 rfl
    (by simp [locateElement, k_map, findElement])).2 rfl rfl
  exact ⟨rfl, by simp [locateElement, k_map, findElement], by simpa using h⟩

/-- C10: on a `strain_only` or `fullfields` database, `get_seismograms`
with `return_obspy_stream=False` reaches the rigidity lookup with
`gll_point_ids` never assigned and fails with an unbound-local error
instead of returning `(data, mu)`; with `return_obspy_stream=False` the
call can never succeed, so `get_seismograms_finite_source` (which uses
that path with reconvolution) cannot succeed on such databases. -/
theorem strain_db_unbound_local {F γ : Type} (ops : FreqOps F) (db : DBModel)
    (kdtree : Nat → List Nat) (inside : Nat → ℚ → Bool) (sem_mesh : Nat → γ)
    (mesh_mu : γ → ℚ) (strain_interp_z strain_z_raw : Nat → List (Fin 6 → ℚ))
    (mij_rot : Fin 6 → ℚ) (src : SourceSTF) (remove : Bool) (a_lanczos : Nat)
    (lr : List ℚ → ℚ → ℚ → Nat → List ℚ)
    (hdump : db.dump_type = DumpType.strain_only
      ∨ db.dump_type = DumpType.fullfields) :
    (getSeismogramsZ ops db kdtree inside sem_mesh mesh_mu strain_interp_z
        strain_z_raw mij_rot src remove false false none a_lanczos lr
      = .error (.unboundLocalError "gll_point_ids")) ∧
    ∀ (reconvolve : Bool) (dt : Option ℚ) (out : SeisOutput),
      getSeismogramsZ ops db kdtree inside sem_mesh mesh_mu strain_interp_z
          strain_z_raw mij_rot src remove reconvolve false dt a_lanczos lr
        ≠ .ok out := by
  rcases hdump with hd | hd
  · constructor
    · cases remove <;>
        simp [getSeismogramsZ, hd, locateElement, k_map, postprocessComp]
    · intro reconvolve dt out
      simp only [getSeismogramsZ, hd, locateElement, k_map]
      cases hpp : postprocessComp ops remove reconvolve db.source_shift_samp
          db.dt db.nfft db.ndumps db.sliprate src dt a_lanczos lr
          (contractZ (fun i => mij_rot i / db.amplitude)
            (strain_z_raw ((kdtree 1).headD 0))) <;> simp [hpp]
  · constructor
    · cases remove <;>
        simp [getSeismogramsZ, hd, locateElement, k_map, postprocessComp]
    · intro reconvolve dt out
      simp only [getSeismogramsZ, hd, locateElement, k_map]
      cases hpp : postprocessComp ops remove reconvolve db.source_shift_samp
          db.dt db.nfft db.ndumps db.sliprate src dt a_lanczos lr
          (contractZ (fun i => mij_rot i / db.amplitude)
            (strain_z_raw ((kdtree 1).headD 0))) <;> simp [hpp]

/-- C10 witness: a concrete `strain_only` database with
`return_obspy_stream=False` fails with the unbound-local error. -/
theorem strain_db_unbound_local_witness :
    ((DBModel.mk DumpType.strain_only 1 0 1 2 4 [1]).dump_type
        = DumpType.strain_only
      ∨ (DBModel.mk DumpType.strain_only 1 0 1 2 4 [1]).dump_type
        = DumpType.fullfields) ∧
    getSeismogramsZ
        (FreqOps.mk (fun l _ => l) (fun l => l) (fun a _ => a) (fun a _ => a)
          (fun _ _ _ f => f))
        (DBModel.mk DumpType.strain_only 1 0 1 2 4 [1])
        (fun _ => [0]) (fun _ _ => true) (fun _ => ()) (fun _ => 1)
        (fun _ => []) (fun _ => [fun _ => 3]) unitTensor
        (SourceSTF.mk none none none) false false false none 5
        (fun d _ _ _ => d)
      = .error (.unboundLocalError "gll_point_ids") :=
  ⟨Or.inl rfl,
    (strain_db_unbound_local
      (FreqOps.mk (fun l _ => l) (fun l => l) (fun a _ => a) (fun a _ => a)
        (fun _ _ _ f => f))
      (DBModel.mk DumpType.strain_only 1 0 1 2 4 [1])
      (fun _ => [0]) (fun _ _ => true) (fun _ => ()) (fun _ => 1)
      (fun _ => []) (fun _ => [fun _ => 3]) unitTensor
      (SourceSTF.mk none none none) false 5 (fun d _ _ _ => d)
      (Or.inl rfl)).1⟩

/-- C2 witness: a concrete candidate list where the second candidate
contains the point: the locator returns it. -/
theorem locator_candidates_witness :
    locateElement DumpType.displ_only (fun idx _ => idx == 7)
        (fun _ => [3, 7, 9]) = .ok 7 := by
  have h := (locator_candidates.2.2.2.2 (fun idx _ => idx == 7)
    (fun _ => [3, 7, 9])).1
  simpa using h

end Instaseis
